import Mathlib

/-!
Verification of the retirement planner (`app.py`).

The month-by-month fund simulator, the age-60 analysis and the post-60
drawdown projector are embedded as pure functions over an arbitrary linear
ordered field `K` (the Python floats are modelled by exact arithmetic).
Ages are integers; the derived month counts are integers, mirroring the
Python arithmetic including the possibility of negative period counts.
-/

namespace RetirementPlanner

variable {K : Type*} [LinearOrderedField K]

/-- The user inputs of `app.py` (lines 13-49).  The advanced yearly schedule
(`monthly_map` / `lump_sum_map`, built from the data editor) is modelled as a
partial map from the integer age-year to an amount; `Option.getD` below
reproduces Python's `dict.get(year, 0)`. -/
structure Plan (K : Type*) where
  current_age : ℤ
  retirement_age : ℤ
  lifespan : ℤ
  monthly_return : K
  initial_investment : K
  locked_fraction : K
  monthly_locked : K
  target_withdrawal : K
  use_advanced : Bool
  monthly_map : ℤ → Option K
  lump_sum_map : ℤ → Option K
  monthly_unlocked : K
  lump_sum : K

/-- Source line 27: `months_total = (lifespan - current_age) * 12`. -/
def months_total (p : Plan K) : ℤ := (p.lifespan - p.current_age) * 12

/-- Source line 28: `months_to_retirement = (retirement_age - current_age) * 12`. -/
def months_to_retirement (p : Plan K) : ℤ := (p.retirement_age - p.current_age) * 12

/-- Source line 29: `months_to_60 = (60 - current_age) * 12`. -/
def months_to_60 (p : Plan K) : ℤ := (60 - p.current_age) * 12

/-- Source line 30: `months_post_60 = (lifespan - 60) * 12`. -/
def months_post_60 (p : Plan K) : ℤ := (p.lifespan - 60) * 12

/-- Source lines 65-66: `year = int(np.floor(current_age + month / 12))`; for an
integer `current_age` and a natural month this is `current_age + month / 12`
with natural division. -/
def yearAt (p : Plan K) (month : ℕ) : ℤ := p.current_age + (month / 12 : ℕ)

/-- The monthly unlocked contribution the loop adds at a given month:
`monthly_map.get(year, 0)` in advanced mode (line 71), else the flat
`monthly_unlocked` (line 75). -/
def monthlyContribUsed (p : Plan K) (month : ℕ) : K :=
  if p.use_advanced then (p.monthly_map (yearAt p month)).getD 0 else p.monthly_unlocked

/-- The annual lump sum the loop adds at a given month: only when
`month % 12 == 1` (lines 72-73, 76-77), taken from `lump_sum_map.get(year, 0)`
in advanced mode, else the flat `lump_sum`. -/
def lumpUsed (p : Plan K) (month : ℕ) : K :=
  if month % 12 = 1 then
    (if p.use_advanced then (p.lump_sum_map (yearAt p month)).getD 0 else p.lump_sum)
  else 0

/-- Investment phase (lines 69-78): contributions happen only while
`month <= months_to_retirement`; the locked bucket always receives
`monthly_locked` in that window. -/
def contribPhase (p : Plan K) (month : ℕ) (s : K × K) : K × K :=
  if (month : ℤ) ≤ months_to_retirement p then
    (s.1 + monthlyContribUsed p month + lumpUsed p month, s.2 + p.monthly_locked)
  else s

/-- Growth phase (lines 81-82): both buckets are multiplied by
`1 + monthly_return`. -/
def growthPhase (p : Plan K) (s : K × K) : K × K :=
  (s.1 * (1 + p.monthly_return), s.2 * (1 + p.monthly_return))

/-- Withdrawal phase (lines 85-89): only when
`months_to_retirement < month <= months_to_60`; subtract `target_withdrawal`
from the unlocked bucket if it covers it, otherwise zero the unlocked bucket;
the locked bucket is untouched. -/
def withdrawPhase (p : Plan K) (month : ℕ) (s : K × K) : K × K :=
  if months_to_retirement p < (month : ℤ) ∧ (month : ℤ) ≤ months_to_60 p then
    (if p.target_withdrawal ≤ s.1 then s.1 - p.target_withdrawal else 0, s.2)
  else s

/-- One iteration of the simulation loop (lines 64-89), in the source order:
contribution, then growth, then withdrawal. -/
def simStep (p : Plan K) (month : ℕ) (s : K × K) : K × K :=
  withdrawPhase p month (growthPhase p (contribPhase p month s))

/-- The month-0 state (lines 56-57): the split of `initial_investment` by
`locked_fraction`, with no growth or contribution applied. -/
def initState (p : Plan K) : K × K :=
  (p.initial_investment * (1 - p.locked_fraction), p.initial_investment * p.locked_fraction)

/-- The tail of the trajectory produced by the loop, as the source produces
it: starting from state `s` at month index `m + 1`, run `n` more iterations,
appending the state after each one (lines 91-94). -/
def simFrom (p : Plan K) : K × K → ℕ → ℕ → List (K × K)
  | _, _, 0 => []
  | s, m, n + 1 =>
    let t := simStep p m s
    t :: simFrom p t (m + 1) n

/-- The full trajectory of `(unlocked, locked)` pairs: the initial snapshot
(lines 59-60) followed by one entry per loop month `1..months_total`
(`range(1, months_total + 1)`, empty when `months_total` is negative). -/
def simulate (p : Plan K) : List (K × K) :=
  initState p :: simFrom p (initState p) 1 (months_total p).toNat

/-- The reference per-month transition as the spec states it: (1) contributions
only when `m <= months_to_retirement`, then (2) growth of both buckets by
`1 + monthly_return`, then (3) the pre-60 withdrawal only when
`months_to_retirement < m <= months_to_60`. -/
def refStep (p : Plan K) (m : ℕ) (s : K × K) : K × K :=
  let afterContrib : K × K :=
    if (m : ℤ) ≤ months_to_retirement p then
      (s.1 + monthlyContribUsed p m + lumpUsed p m, s.2 + p.monthly_locked)
    else s
  let afterGrowth : K × K :=
    (afterContrib.1 * (1 + p.monthly_return), afterContrib.2 * (1 + p.monthly_return))
  if months_to_retirement p < (m : ℤ) ∧ (m : ℤ) ≤ months_to_60 p then
    (if p.target_withdrawal ≤ afterGrowth.1 then afterGrowth.1 - p.target_withdrawal else 0,
     afterGrowth.2)
  else afterGrowth

/-- The reference state after `m` months: snapshot 0 is the initial split, and
snapshot `m + 1` applies the reference transition for month `m + 1`. -/
def refState (p : Plan K) : ℕ → K × K
  | 0 => initState p
  | m + 1 => refStep p (m + 1) (refState p m)

/-- The reference trajectory: one snapshot per month `0..months_total`. -/
def refTraj (p : Plan K) : List (K × K) :=
  (List.range ((months_total p).toNat + 1)).map (refState p)

lemma simStep_eq_refStep (p : Plan K) (m : ℕ) (s : K × K) :
    simStep p m s = refStep p m s := rfl

lemma simFrom_eq_map_refState (p : Plan K) (n m : ℕ) :
    simFrom p (refState p m) (m + 1) n =
      (List.range n).map (fun i => refState p (m + 1 + i)) := by
  induction n generalizing m with
  | zero => simp [simFrom]
  | succ n ih =>
    have hstep : simStep p (m + 1) (refState p m) = refState p (m + 1) := by
      rw [simStep_eq_refStep]; rfl
    rw [List.range_succ_eq_map]
    simp only [simFrom, hstep, List.map_cons, List.map_map]
    refine congrArg₂ _ (by simp) ?_
    have := ih (m + 1)
    rw [this]
    refine congrArg₂ _ ?_ rfl
    funext i
    simp [Function.comp]
    ring_nf

lemma simulate_eq_refTraj (p : Plan K) : simulate p = refTraj p := by
  unfold simulate refTraj
  rw [List.range_succ_eq_map, List.map_cons, List.map_map]
  refine congrArg₂ _ rfl ?_
  have h := simFrom_eq_map_refState p (months_total p).toNat 0
  simp only [Nat.zero_add] at h
  have hinit : refState p 0 = initState p := rfl
  rw [hinit] at h
  rw [h]
  refine congrArg₂ _ ?_ rfl
  funext i
  simp [Function.comp, Nat.add_comm]

lemma simFrom_length (p : Plan K) (n : ℕ) :
    ∀ s m, (simFrom p s m n).length = n := by
  induction n with
  | zero => intro s m; simp [simFrom]
  | succ n ih => intro s m; simp [simFrom, ih]

lemma simulate_length (p : Plan K) :
    (simulate p).length = (months_total p).toNat + 1 := by
  simp [simulate, simFrom_length]

/-- Source line 18: `monthly_return = (1 + annual_return) ** (1 / 12) - 1`, with the
Python float power modelled by the real power function. -/
noncomputable def monthly_return_of (annual : ℝ) : ℝ := (1 + annual) ^ ((1 : ℝ) / 12) - 1

lemma one_add_monthly_return_pos {annual : ℝ} (h : -1 < annual) :
    0 < 1 + monthly_return_of annual := by
  have h1 : (0 : ℝ) < 1 + annual := by linarith
  have := Real.rpow_pos_of_pos h1 ((1 : ℝ) / 12)
  unfold monthly_return_of
  linarith

lemma monthly_return_of_zero : monthly_return_of 0 = 0 := by
  unfold monthly_return_of
  norm_num

lemma monthlyContribUsed_nonneg (p : Plan K) (m : ℕ)
    (hmu : 0 ≤ p.monthly_unlocked)
    (hmm : ∀ y v, p.monthly_map y = some v → 0 ≤ v) :
    0 ≤ monthlyContribUsed p m := by
  unfold monthlyContribUsed
  split
  · cases hmap : p.monthly_map (yearAt p m) with
    | none => simp
    | some v => simpa using hmm _ v hmap
  · exact hmu

lemma lumpUsed_nonneg (p : Plan K) (m : ℕ)
    (hls : 0 ≤ p.lump_sum)
    (hlm : ∀ y v, p.lump_sum_map y = some v → 0 ≤ v) :
    0 ≤ lumpUsed p m := by
  unfold lumpUsed
  split
  · split
    · cases hmap : p.lump_sum_map (yearAt p m) with
      | none => simp
      | some v => simpa using hlm _ v hmap
    · exact hls
  · exact le_refl 0

lemma simStep_nonneg (p : Plan K)
    (hg : 0 < 1 + p.monthly_return)
    (hml : 0 ≤ p.monthly_locked) (hmu : 0 ≤ p.monthly_unlocked) (hls : 0 ≤ p.lump_sum)
    (hmm : ∀ y v, p.monthly_map y = some v → 0 ≤ v)
    (hlm : ∀ y v, p.lump_sum_map y = some v → 0 ≤ v)
    (m : ℕ) (s : K × K) (hu : 0 ≤ s.1) (hl : 0 ≤ s.2) :
    0 ≤ (simStep p m s).1 ∧ 0 ≤ (simStep p m s).2 := by
  have hc1 : 0 ≤ (contribPhase p m s).1 := by
    unfold contribPhase
    split
    · exact add_nonneg (add_nonneg hu (monthlyContribUsed_nonneg p m hmu hmm))
        (lumpUsed_nonneg p m hls hlm)
    · exact hu
  have hc2 : 0 ≤ (contribPhase p m s).2 := by
    unfold contribPhase
    split
    · exact add_nonneg hl hml
    · exact hl
  have hg1 : 0 ≤ (growthPhase p (contribPhase p m s)).1 :=
    mul_nonneg hc1 (le_of_lt hg)
  have hg2 : 0 ≤ (growthPhase p (contribPhase p m s)).2 :=
    mul_nonneg hc2 (le_of_lt hg)
  unfold simStep withdrawPhase
  split
  · constructor
    · split
      · have hx : p.target_withdrawal ≤ (growthPhase p (contribPhase p m s)).1 := by assumption
        simpa using hx
      · exact le_refl 0
    · exact hg2
  · exact ⟨hg1, hg2⟩

lemma simFrom_nonneg (p : Plan K)
    (hg : 0 < 1 + p.monthly_return)
    (hml : 0 ≤ p.monthly_locked) (hmu : 0 ≤ p.monthly_unlocked) (hls : 0 ≤ p.lump_sum)
    (hmm : ∀ y v, p.monthly_map y = some v → 0 ≤ v)
    (hlm : ∀ y v, p.lump_sum_map y = some v → 0 ≤ v) :
    ∀ (n m : ℕ) (s : K × K), 0 ≤ s.1 → 0 ≤ s.2 →
      ∀ q ∈ simFrom p s m n, 0 ≤ q.1 ∧ 0 ≤ q.2 := by
  intro n
  induction n with
  | zero =>
    intro m s _ _ q hq
    simp [simFrom] at hq
  | succ n ih =>
    intro m s hu hl q hq
    have hstep := simStep_nonneg p hg hml hmu hls hmm hlm m s hu hl
    simp only [simFrom, List.mem_cons] at hq
    rcases hq with rfl | hq
    · exact hstep
    · exact ih (m + 1) (simStep p m s) hstep.1 hstep.2 q hq

lemma initState_nonneg (p : Plan K)
    (h0 : 0 ≤ p.initial_investment) (hlf0 : 0 ≤ p.locked_fraction)
    (hlf1 : p.locked_fraction ≤ 1) :
    0 ≤ (initState p).1 ∧ 0 ≤ (initState p).2 :=
  ⟨mul_nonneg h0 (by linarith), mul_nonneg h0 hlf0⟩

lemma simulate_nonneg (p : Plan K)
    (hg : 0 < 1 + p.monthly_return)
    (h0 : 0 ≤ p.initial_investment) (hlf0 : 0 ≤ p.locked_fraction)
    (hlf1 : p.locked_fraction ≤ 1)
    (hml : 0 ≤ p.monthly_locked) (hmu : 0 ≤ p.monthly_unlocked) (hls : 0 ≤ p.lump_sum)
    (hmm : ∀ y v, p.monthly_map y = some v → 0 ≤ v)
    (hlm : ∀ y v, p.lump_sum_map y = some v → 0 ≤ v) :
    ∀ q ∈ simulate p, 0 ≤ q.1 ∧ 0 ≤ q.2 := by
  intro q hq
  have hinit := initState_nonneg p h0 hlf0 hlf1
  simp only [simulate, List.mem_cons] at hq
  rcases hq with rfl | hq
  · exact hinit
  · exact simFrom_nonneg p hg hml hmu hls hmm hlm _ _ _ hinit.1 hinit.2 q hq

/-- A concrete plan used as an evaluation point: the spec's scenario inputs
with the basic (non-advanced) contribution mode and a zero return rate. -/
def demoPlan : Plan ℚ where
  current_age := 30
  retirement_age := 36
  lifespan := 90
  monthly_return := 0
  initial_investment := 300000
  locked_fraction := 1 / 2
  monthly_locked := 3000
  target_withdrawal := 10000
  use_advanced := false
  monthly_map := fun _ => none
  lump_sum_map := fun _ => none
  monthly_unlocked := 3000
  lump_sum := 40000

/-- The spec scenario plan over the reals, with the monthly return derived
from a zero annual return exactly as the source derives it. -/
noncomputable def demoPlanR : Plan ℝ where
  current_age := 30
  retirement_age := 36
  lifespan := 90
  monthly_return := monthly_return_of 0
  initial_investment := 300000
  locked_fraction := 1 / 2
  monthly_locked := 3000
  target_withdrawal := 10000
  use_advanced := false
  monthly_map := fun _ => none
  lump_sum_map := fun _ => none
  monthly_unlocked := 3000
  lump_sum := 40000

/-- C1: the simulator's trajectory equals the reference definition — snapshot 0
is the `locked_fraction` split of `initial_investment` with no growth or
contribution, and every month `1..months_total` applies, in order,
contribution (when `m ≤ months_to_retirement`), growth by `1 + monthly_return`,
and the pre-60 withdrawal (when `months_to_retirement < m ≤ months_to_60`),
appending the pair; hence for `current_age = 30`, `lifespan = 90` the
trajectory has exactly 721 entries. -/
theorem trajectory_equals_reference (p : Plan K) :
    simulate p = refTraj p ∧
    (simulate p).length = (months_total p).toNat + 1 ∧
    (p.current_age = 30 → p.lifespan = 90 → (simulate p).length = 721) := by
  refine ⟨simulate_eq_refTraj p, simulate_length p, ?_⟩
  intro h30 h90
  rw [simulate_length, months_total, h30, h90]
  decide

/-- Witness for C1 at the spec's scenario inputs. -/
theorem trajectory_equals_reference_witness :
    (simulate demoPlan).length = 721 :=
  (trajectory_equals_reference demoPlan).2.2 rfl rfl

/-- C2: for every plan with non-negative `initial_investment`, contributions and
schedule values, `annual_return > -1` and `locked_fraction` between 0 and 1,
every trajectory entry has a non-negative unlocked and locked balance. -/
theorem trajectory_clamp_invariant (annual : ℝ) (p : Plan ℝ)
    (hr : -1 < annual) (hpr : p.monthly_return = monthly_return_of annual)
    (h0 : 0 ≤ p.initial_investment) (hlf0 : 0 ≤ p.locked_fraction)
    (hlf1 : p.locked_fraction ≤ 1)
    (hml : 0 ≤ p.monthly_locked) (hmu : 0 ≤ p.monthly_unlocked) (hls : 0 ≤ p.lump_sum)
    (hmm : ∀ y v, p.monthly_map y = some v → 0 ≤ v)
    (hlm : ∀ y v, p.lump_sum_map y = some v → 0 ≤ v) :
    ∀ q ∈ simulate p, 0 ≤ q.1 ∧ 0 ≤ q.2 := by
  have hg : 0 < 1 + p.monthly_return := by
    rw [hpr]; exact one_add_monthly_return_pos hr
  exact simulate_nonneg p hg h0 hlf0 hlf1 hml hmu hls hmm hlm

/-- Witness for C2 at the spec's scenario inputs with a zero annual return,
evaluated at the trajectory's initial entry. -/
theorem trajectory_clamp_invariant_witness :
    0 ≤ (initState demoPlanR).1 ∧ 0 ≤ (initState demoPlanR).2 :=
  trajectory_clamp_invariant 0 demoPlanR (by norm_num) rfl
    (by norm_num [demoPlanR]) (by norm_num [demoPlanR]) (by norm_num [demoPlanR])
    (by norm_num [demoPlanR]) (by norm_num [demoPlanR]) (by norm_num [demoPlanR])
    (fun y v h => Option.noConfusion h) (fun y v h => Option.noConfusion h)
    (initState demoPlanR) (List.mem_cons_self _ _)

/-- C4: in the pre-60 drawdown window the withdrawal step subtracts
`target_withdrawal` from the unlocked bucket when it covers it, otherwise sets
the unlocked bucket to exactly zero, and in both cases leaves the locked
bucket unchanged. -/
theorem withdraw_clamp_frame (p : Plan K) (m : ℕ) (u l : K)
    (hm1 : months_to_retirement p < (m : ℤ)) (hm2 : (m : ℤ) ≤ months_to_60 p) :
    (p.target_withdrawal ≤ u → withdrawPhase p m (u, l) = (u - p.target_withdrawal, l)) ∧
    (u < p.target_withdrawal → withdrawPhase p m (u, l) = (0, l)) := by
  constructor
  · intro hcover
    simp [withdrawPhase, hm1, hm2, hcover]
  · intro hshort
    simp [withdrawPhase, hm1, hm2, not_le.mpr hshort]

/-- Witness for C4: a month inside the drawdown window of the scenario plan,
in both the covered and the shortfall case. -/
theorem withdraw_clamp_frame_witness :
    (withdrawPhase demoPlan 100 (25000, 40000) = (15000, 40000)) ∧
    (withdrawPhase demoPlan 100 (9000, 40000) = (0, 40000)) := by
  have h1 := (withdraw_clamp_frame demoPlan 100 (25000 : ℚ) 40000
    (by norm_num [months_to_retirement, demoPlan])
    (by norm_num [months_to_60, demoPlan])).1 (by norm_num [demoPlan])
  have h2 := (withdraw_clamp_frame demoPlan 100 (9000 : ℚ) 40000
    (by norm_num [months_to_retirement, demoPlan])
    (by norm_num [months_to_60, demoPlan])).2 (by norm_num [demoPlan])
  refine ⟨?_, ?_⟩
  · rw [h1]; norm_num [demoPlan]
  · exact h2

/-- One iteration of the custom post-60 drawdown loop (lines 170-172): grow the
balance by `1 + monthly_return`, subtract the monthly withdrawal, clamp at
zero. -/
def post_60_step (r w : K) : K → K := fun b => max (b * (1 + r) - w) 0

/-- Source lines 166-173, `fund_post_60_trajectory`: starting from the combined
balance at 60, append the balance after each of the `months_post_60` loop
iterations. -/
def fund_post_60_trajectory (r w b : K) (n : ℕ) : List K :=
  (List.range n).map (fun k => (post_60_step r w)^[k + 1] b)

/-- Source lines 102-106, `withdrawal_post_60`: the annuity-payment formula when
`monthly_return > 0`, otherwise `combined_at_60 / months_post_60`. -/
def withdrawal_post_60 (r : K) (n : ℤ) (b : K) : K :=
  if 0 < r then b * (r * (1 + r) ^ n) / ((1 + r) ^ n - 1) else b / (n : K)

lemma post_60_closed_form_pos (r b : K) (hr : 0 < r) (hb : 0 ≤ b) (n : ℕ) (hn : 1 ≤ n) :
    ∀ k, k ≤ n →
      (post_60_step r (b * (r * (1 + r) ^ n) / ((1 + r) ^ n - 1)))^[k] b
        = b * ((1 + r) ^ n - (1 + r) ^ k) / ((1 + r) ^ n - 1) := by
  have h1r : (1 : K) < 1 + r := by linarith
  have hD : 0 < (1 + r) ^ n - 1 := by
    have := one_lt_pow h1r (by omega : n ≠ 0)
    linarith
  have hDne : (1 + r) ^ n - 1 ≠ 0 := ne_of_gt hD
  intro k
  induction k with
  | zero =>
    intro _
    simp only [Function.iterate_zero, id]
    rw [pow_zero]
    field_simp
  | succ k ih =>
    intro hk
    have hk' : k ≤ n := by omega
    have hkn : (1 + r) ^ (k + 1) ≤ (1 + r) ^ n :=
      pow_le_pow_right (by linarith) hk
    have hF : 0 ≤ b * ((1 + r) ^ n - (1 + r) ^ (k + 1)) / ((1 + r) ^ n - 1) := by
      apply div_nonneg _ (le_of_lt hD)
      exact mul_nonneg hb (by linarith)
    rw [Function.iterate_succ_apply', ih hk']
    unfold post_60_step
    rw [max_eq_left]
    · field_simp
      ring
    · have hstep :
          b * ((1 + r) ^ n - (1 + r) ^ k) / ((1 + r) ^ n - 1) * (1 + r) -
            b * (r * (1 + r) ^ n) / ((1 + r) ^ n - 1)
            = b * ((1 + r) ^ n - (1 + r) ^ (k + 1)) / ((1 + r) ^ n - 1) := by
        field_simp
        ring
      rw [hstep]
      exact hF

lemma post_60_closed_form_zero (b : K) (hb : 0 ≤ b) (n : ℕ) (hn : 1 ≤ n) :
    ∀ k, k ≤ n →
      (post_60_step 0 (b / (n : K)))^[k] b = b * ((n : K) - k) / n := by
  have hnK : (0 : K) < (n : K) := by exact_mod_cast hn
  have hnKne : (n : K) ≠ 0 := ne_of_gt hnK
  intro k
  induction k with
  | zero =>
    intro _
    simp only [Function.iterate_zero, id, Nat.cast_zero, sub_zero]
    field_simp
  | succ k ih =>
    intro hk
    have hk' : k ≤ n := by omega
    have hcast : ((k : K) + 1) ≤ (n : K) := by exact_mod_cast hk
    rw [Function.iterate_succ_apply', ih hk']
    unfold post_60_step
    rw [max_eq_left]
    · push_cast
      field_simp
      ring
    · have hstep : b * ((n : K) - k) / n * (1 + 0) - b / n
          = b * ((n : K) - (k + 1)) / n := by
        field_simp
        ring
      rw [hstep]
      apply div_nonneg _ (le_of_lt hnK)
      exact mul_nonneg hb (by linarith)

lemma fund_post_60_trajectory_get (r w b : K) (n : ℕ) (hn : 1 ≤ n) :
    (fund_post_60_trajectory r w b n).get? (n - 1)
      = some ((post_60_step r w)^[n] b) := by
  unfold fund_post_60_trajectory
  have hidx : n - 1 + 1 = n := by omega
  rw [List.get?_map, List.get?_range (by omega : n - 1 < n), Option.map_some']
  show some ((post_60_step r w)^[n - 1 + 1] b) = some ((post_60_step r w)^[n] b)
  rw [hidx]

/-- C5: the maximum sustainable post-60 withdrawal is the annuity-payment
closed form `b * r * (1 + r) ^ n / ((1 + r) ^ n - 1)` over
`n = months_post_60` months (`b / n` when the rate is zero), and running the
post-horizon drawdown loop with exactly this withdrawal depletes the starting
combined balance to exactly zero at the horizon end. -/
theorem withdrawal_post_60_depletes (p : Plan K) (b : K)
    (hb : 0 ≤ b) (hl : 60 < p.lifespan)
    (hr : 0 < p.monthly_return ∨ p.monthly_return = 0) :
    (0 < p.monthly_return →
      withdrawal_post_60 p.monthly_return (months_post_60 p) b
        = b * (p.monthly_return * (1 + p.monthly_return) ^ (months_post_60 p)) /
            ((1 + p.monthly_return) ^ (months_post_60 p) - 1)) ∧
    (p.monthly_return = 0 →
      withdrawal_post_60 p.monthly_return (months_post_60 p) b
        = b / ((months_post_60 p : ℤ) : K)) ∧
    (post_60_step p.monthly_return
        (withdrawal_post_60 p.monthly_return (months_post_60 p) b))^[(months_post_60 p).toNat] b
      = 0 ∧
    (fund_post_60_trajectory p.monthly_return
        (withdrawal_post_60 p.monthly_return (months_post_60 p) b) b
        (months_post_60 p).toNat).get? ((months_post_60 p).toNat - 1) = some 0 := by
  have hm : (12 : ℤ) ≤ months_post_60 p := by
    unfold months_post_60
    omega
  have hnn : (0 : ℤ) ≤ months_post_60 p := by omega
  have hcastn : months_post_60 p = ((months_post_60 p).toNat : ℤ) :=
    (Int.toNat_of_nonneg hnn).symm
  set n := (months_post_60 p).toNat with hndef
  have hn1 : 1 ≤ n := by omega
  have hzero :
      (post_60_step p.monthly_return
        (withdrawal_post_60 p.monthly_return (months_post_60 p) b))^[n] b = 0 := by
    rcases hr with hpos | hzero
    · have hw : withdrawal_post_60 p.monthly_return (months_post_60 p) b
          = b * (p.monthly_return * (1 + p.monthly_return) ^ n) /
              ((1 + p.monthly_return) ^ n - 1) := by
        unfold withdrawal_post_60
        rw [if_pos hpos, hcastn, zpow_natCast]
      rw [hw]
      have := post_60_closed_form_pos p.monthly_return b hpos hb n hn1 n le_rfl
      rw [this]
      simp
    · have hw : withdrawal_post_60 p.monthly_return (months_post_60 p) b
          = b / (n : K) := by
        unfold withdrawal_post_60
        rw [if_neg (by rw [hzero]; exact lt_irrefl 0), hcastn]
        push_cast
        rfl
      rw [hw, hzero]
      have := post_60_closed_form_zero b hb n hn1 n le_rfl
      rw [this]
      simp
  refine ⟨?_, ?_, hzero, ?_⟩
  · intro hpos
    unfold withdrawal_post_60
    rw [if_pos hpos]
  · intro hz
    unfold withdrawal_post_60
    rw [if_neg (by rw [hz]; exact lt_irrefl 0)]
  · rw [fund_post_60_trajectory_get _ _ _ _ hn1, hzero]

/-- Witness for C5: the scenario plan with zero monthly return and a concrete
starting balance. -/
theorem withdrawal_post_60_depletes_witness :
    (post_60_step demoPlan.monthly_return
        (withdrawal_post_60 demoPlan.monthly_return (months_post_60 demoPlan) 100))^[
          (months_post_60 demoPlan).toNat] (100 : ℚ) = 0 :=
  (withdrawal_post_60_depletes demoPlan 100 (by norm_num)
    (by norm_num [demoPlan]) (Or.inr rfl)).2.2.1

/-- The spec's zero-rate reference transition: each month the unlocked bucket
becomes the previous balance plus that month's contributions minus that
month's withdrawal, clamped at zero, and the locked bucket accumulates the
monthly locked contribution. -/
def runningStep (p : Plan K) (m : ℕ) (s : K × K) : K × K :=
  (max (s.1 +
      (if (m : ℤ) ≤ months_to_retirement p then monthlyContribUsed p m + lumpUsed p m else 0) -
      (if months_to_retirement p < (m : ℤ) ∧ (m : ℤ) ≤ months_to_60 p
        then p.target_withdrawal else 0)) 0,
   s.2 + (if (m : ℤ) ≤ months_to_retirement p then p.monthly_locked else 0))

/-- The running-sum state after `m` months. -/
def runningState (p : Plan K) : ℕ → K × K
  | 0 => initState p
  | m + 1 => runningStep p (m + 1) (runningState p m)

/-- The running-sum trajectory, one snapshot per month `0..months_total`. -/
def runningTraj (p : Plan K) : List (K × K) :=
  (List.range ((months_total p).toNat + 1)).map (runningState p)

lemma simStep_eq_runningStep (p : Plan K) (hmr : p.monthly_return = 0)
    (hmu : 0 ≤ p.monthly_unlocked) (hls : 0 ≤ p.lump_sum)
    (hmm : ∀ y v, p.monthly_map y = some v → 0 ≤ v)
    (hlm : ∀ y v, p.lump_sum_map y = some v → 0 ≤ v)
    (m : ℕ) (s : K × K) (hu : 0 ≤ s.1) :
    simStep p m s = runningStep p m s := by
  have hC : 0 ≤ monthlyContribUsed p m + lumpUsed p m :=
    add_nonneg (monthlyContribUsed_nonneg p m hmu hmm) (lumpUsed_nonneg p m hls hlm)
  by_cases h1 : (m : ℤ) ≤ months_to_retirement p
  · have h2 : ¬ (months_to_retirement p < (m : ℤ) ∧ (m : ℤ) ≤ months_to_60 p) := by
      rintro ⟨h2a, _⟩
      exact absurd h1 (not_le.mpr h2a)
    simp only [simStep, withdrawPhase, growthPhase, contribPhase, runningStep,
      if_pos h1, if_neg h2, hmr, add_zero, mul_one, sub_zero, Prod.mk.injEq]
    constructor
    · rw [max_eq_left (by linarith)]
      ring
    · trivial
  · by_cases h2 : months_to_retirement p < (m : ℤ) ∧ (m : ℤ) ≤ months_to_60 p
    · simp only [simStep, withdrawPhase, growthPhase, contribPhase, runningStep,
        if_neg h1, if_pos h2, hmr, add_zero, mul_one, Prod.mk.injEq]
      refine ⟨?_, trivial⟩
      by_cases h3 : p.target_withdrawal ≤ s.1
      · rw [if_pos h3, max_eq_left (by linarith)]
      · push_neg at h3
        rw [if_neg (not_le.mpr h3), max_eq_right (by linarith)]
    · simp only [simStep, withdrawPhase, growthPhase, contribPhase, runningStep,
        if_neg h1, if_neg h2, hmr, add_zero, mul_one, sub_zero, Prod.mk.injEq]
      exact ⟨(max_eq_left hu).symm, trivial⟩

lemma refState_eq_runningState (p : Plan K) (hmr : p.monthly_return = 0)
    (h0 : 0 ≤ p.initial_investment) (hlf0 : 0 ≤ p.locked_fraction)
    (hlf1 : p.locked_fraction ≤ 1)
    (hml : 0 ≤ p.monthly_locked) (hmu : 0 ≤ p.monthly_unlocked) (hls : 0 ≤ p.lump_sum)
    (hmm : ∀ y v, p.monthly_map y = some v → 0 ≤ v)
    (hlm : ∀ y v, p.lump_sum_map y = some v → 0 ≤ v) :
    ∀ m, refState p m = runningState p m ∧
      0 ≤ (refState p m).1 ∧ 0 ≤ (refState p m).2 := by
  have hg : (0 : K) < 1 + p.monthly_return := by rw [hmr]; norm_num
  intro m
  induction m with
  | zero => exact ⟨rfl, initState_nonneg p h0 hlf0 hlf1⟩
  | succ m ih =>
    have hstep := simStep_nonneg p hg hml hmu hls hmm hlm (m + 1) (refState p m)
      ih.2.1 ih.2.2
    refine ⟨?_, ?_, ?_⟩
    · show refStep p (m + 1) (refState p m) = runningStep p (m + 1) (runningState p m)
      rw [← ih.1, ← simStep_eq_refStep]
      exact simStep_eq_runningStep p hmr hmu hls hmm hlm (m + 1) _ ih.2.1
    · show 0 ≤ (refStep p (m + 1) (refState p m)).1
      rw [← simStep_eq_refStep]
      exact hstep.1
    · show 0 ≤ (refStep p (m + 1) (refState p m)).2
      rw [← simStep_eq_refStep]
      exact hstep.2

/-- C7: for a zero annual return the derived monthly return is exactly zero,
every monthly growth multiplier is one, and the trajectory equals the simple
running sums of contributions minus withdrawals with the unlocked bucket
clamped at zero. -/
theorem zero_rate_running_sums (annual : ℝ) (p : Plan ℝ)
    (ha : annual = 0) (hpr : p.monthly_return = monthly_return_of annual)
    (h0 : 0 ≤ p.initial_investment) (hlf0 : 0 ≤ p.locked_fraction)
    (hlf1 : p.locked_fraction ≤ 1)
    (hml : 0 ≤ p.monthly_locked) (hmu : 0 ≤ p.monthly_unlocked) (hls : 0 ≤ p.lump_sum)
    (hmm : ∀ y v, p.monthly_map y = some v → 0 ≤ v)
    (hlm : ∀ y v, p.lump_sum_map y = some v → 0 ≤ v) :
    p.monthly_return = 0 ∧ 1 + p.monthly_return = 1 ∧ simulate p = runningTraj p := by
  have hmr : p.monthly_return = 0 := by
    rw [hpr, ha, monthly_return_of_zero]
  refine ⟨hmr, by rw [hmr]; norm_num, ?_⟩
  rw [simulate_eq_refTraj]
  unfold refTraj runningTraj
  refine congrArg₂ _ ?_ rfl
  funext m
  exact (refState_eq_runningState p hmr h0 hlf0 hlf1 hml hmu hls hmm hlm m).1

/-- Witness for C7 at the spec's scenario inputs with a zero annual return. -/
theorem zero_rate_running_sums_witness :
    demoPlanR.monthly_return = 0 ∧ 1 + demoPlanR.monthly_return = 1 ∧
      simulate demoPlanR = runningTraj demoPlanR :=
  zero_rate_running_sums 0 demoPlanR rfl rfl
    (by norm_num [demoPlanR]) (by norm_num [demoPlanR]) (by norm_num [demoPlanR])
    (by norm_num [demoPlanR]) (by norm_num [demoPlanR]) (by norm_num [demoPlanR])
    (fun y v h => Option.noConfusion h) (fun y v h => Option.noConfusion h)

/-- Python list indexing `xs[i]`: a non-negative index counts from the front,
a negative index is offset by the length, and an out-of-range access raises an
`IndexError`, modelled as `none`. -/
def pyGet {α : Type*} (l : List α) (i : ℤ) : Option α :=
  if 0 ≤ i then l.get? i.toNat
  else if 0 ≤ (l.length : ℤ) + i then l.get? ((l.length : ℤ) + i).toNat
  else none

lemma pyGet_of_nonneg {α : Type*} (l : List α) (i : ℤ) (h : 0 ≤ i) :
    pyGet l i = l.get? i.toNat := if_pos h

lemma pyGet_of_neg {α : Type*} (l : List α) (i : ℤ) (h : i < 0)
    (h2 : 0 ≤ (l.length : ℤ) + i) :
    pyGet l i = l.get? ((l.length : ℤ) + i).toNat := by
  unfold pyGet
  rw [if_neg (not_le.mpr h), if_pos h2]

lemma get?_isSome_of_lt {α : Type*} (l : List α) (n : ℕ) (h : n < l.length) :
    ∃ v, l.get? n = some v := by
  cases hv : l.get? n with
  | none =>
    have := List.get?_eq_none.mp hv
    omega
  | some v => exact ⟨v, rfl⟩

lemma pyGet_neg_one_some {α : Type*} (l : List α) (h : 0 < l.length) :
    ∃ v, pyGet l (-1) = some v := by
  have h2 : (0 : ℤ) ≤ (l.length : ℤ) + (-1) := by omega
  rw [pyGet_of_neg l (-1) (by omega) h2]
  exact get?_isSome_of_lt _ _ (by omega)

/-- The analysis at age 60 (lines 97-106): read the trajectory at index
`months_to_60` with Python list indexing, form the combined balance, and
compute `withdrawal_post_60`; a Python `IndexError` or `ZeroDivisionError`
is modelled as `none`. -/
def analysisAt60 (p : Plan K) : Option (K × K) :=
  (pyGet (simulate p) (months_to_60 p)).bind fun s =>
    if 0 < p.monthly_return then
      if (1 + p.monthly_return) ^ (months_post_60 p) - 1 = 0 then none
      else some (s.1 + s.2, withdrawal_post_60 p.monthly_return (months_post_60 p) (s.1 + s.2))
    else
      if ((months_post_60 p : ℤ) : K) = 0 then none
      else some (s.1 + s.2, withdrawal_post_60 p.monthly_return (months_post_60 p) (s.1 + s.2))

/-- The result surface of the program relevant to error handling: the age-60
analysis followed by the custom post-60 drawdown and the final
`fund_post_60_trajectory[-1]` read (lines 97-175); `none` marks a Python
runtime error, `some` a silently computed result. -/
def appRun (p : Plan K) (custom : K) : Option (K × K × K) :=
  (analysisAt60 p).bind fun cw =>
    (pyGet (fund_post_60_trajectory p.monthly_return custom cw.1 (months_post_60 p).toNat)
        (-1)).map
      fun last => (cw.1, cw.2, last)

lemma fund_post_60_trajectory_length (r w b : K) (n : ℕ) :
    (fund_post_60_trajectory r w b n).length = n := by
  simp [fund_post_60_trajectory]

lemma analysisAt60_isSome (p : Plan K)
    (hca : p.current_age ≤ 60) (hl : 60 < p.lifespan) :
    ∃ cw, analysisAt60 p = some cw := by
  have h60 : (0 : ℤ) ≤ months_to_60 p := by unfold months_to_60; omega
  have hle : months_to_60 p ≤ months_total p := by
    unfold months_to_60 months_total; omega
  have hidx : (months_to_60 p).toNat < (simulate p).length := by
    rw [simulate_length]; omega
  obtain ⟨s, hs⟩ := get?_isSome_of_lt _ _ hidx
  have hpy : pyGet (simulate p) (months_to_60 p) = some s := by
    rw [pyGet_of_nonneg _ _ h60, hs]
  have hmp : (12 : ℤ) ≤ months_post_60 p := by unfold months_post_60; omega
  have hcast : months_post_60 p = (((months_post_60 p).toNat : ℕ) : ℤ) := by omega
  unfold analysisAt60
  rw [hpy, Option.some_bind]
  by_cases hr : 0 < p.monthly_return
  · have h1 : (1 : K) < 1 + p.monthly_return := by linarith
    have hgt : (1 : K) < (1 + p.monthly_return) ^ (months_post_60 p) := by
      rw [hcast, zpow_natCast]
      exact one_lt_pow h1 (by omega)
    have hd : (1 + p.monthly_return) ^ (months_post_60 p) - 1 ≠ 0 := by linarith
    rw [if_pos hr, if_neg hd]
    exact ⟨_, rfl⟩
  · have hd : ((months_post_60 p : ℤ) : K) ≠ 0 := by
      exact_mod_cast (by omega : months_post_60 p ≠ 0)
    rw [if_neg hr, if_neg hd]
    exact ⟨_, rfl⟩

lemma appRun_isSome (p : Plan K) (custom : K)
    (hca : p.current_age ≤ 60) (hl : 60 < p.lifespan) :
    (appRun p custom).isSome = true := by
  obtain ⟨cw, hcw⟩ := analysisAt60_isSome p hca hl
  have hmp : (12 : ℤ) ≤ months_post_60 p := by unfold months_post_60; omega
  have hlen : 0 < (fund_post_60_trajectory p.monthly_return custom cw.1
      (months_post_60 p).toNat).length := by
    rw [fund_post_60_trajectory_length]; omega
  obtain ⟨v, hv⟩ := pyGet_neg_one_some _ hlen
  unfold appRun
  rw [hcw, Option.some_bind, hv, Option.map_some']
  rfl

/-- The spec's error policy for invalid age orderings, as a statement about a
plan: if `retirement_age > lifespan` or `current_age > retirement_age`, the
program surfaces a configuration error (`none`) instead of computing. -/
def invalidAgesSurfaced (p : Plan K) (custom : K) : Prop :=
  (p.lifespan < p.retirement_age ∨ p.retirement_age < p.current_age) →
    appRun p custom = none

/-- A plan whose ages are mis-ordered (`retirement_age > lifespan`), with zero
rate and zero amounts. -/
def badOrderPlan : Plan ℚ where
  current_age := 30
  retirement_age := 95
  lifespan := 90
  monthly_return := 0
  initial_investment := 0
  locked_fraction := 0
  monthly_locked := 0
  target_withdrawal := 0
  use_advanced := false
  monthly_map := fun _ => none
  lump_sum_map := fun _ => none
  monthly_unlocked := 0
  lump_sum := 0

/-- A plan whose lifespan is exactly 60. -/
def lifespan60Plan : Plan ℚ :=
  { badOrderPlan with retirement_age := 36, lifespan := 60 }

/-- A plan whose current age is above 60. -/
def over60Plan : Plan ℚ :=
  { badOrderPlan with current_age := 65, retirement_age := 70, lifespan := 90 }

/-- Counterexample for C8: a plan with `retirement_age > lifespan` is not
surfaced as a configuration error — the program runs to completion and
produces a result. -/
theorem invalid_ages_not_surfaced :
    badOrderPlan.lifespan < badOrderPlan.retirement_age ∧
      ¬ invalidAgesSurfaced badOrderPlan 0 := by
  constructor
  · decide
  · intro h
    have hnone := h (Or.inl (by decide))
    have hsome := appRun_isSome badOrderPlan 0 (by decide) (by decide)
    rw [hnone] at hsome
    exact Bool.noConfusion hsome

/-- C8 amended: the program performs no age-ordering validation — for any plan
with mis-ordered ages (`retirement_age > lifespan` or
`current_age > retirement_age`) whose other ages still satisfy
`current_age ≤ 60 < lifespan`, it silently computes a full result instead of
surfacing a configuration error. -/
theorem invalid_ages_silently_computed (p : Plan K) (custom : K)
    (hbad : p.lifespan < p.retirement_age ∨ p.retirement_age < p.current_age)
    (hca : p.current_age ≤ 60) (hl : 60 < p.lifespan) :
    (appRun p custom).isSome = true :=
  appRun_isSome p custom hca hl

/-- Witness for C8 at the mis-ordered concrete plan. -/
theorem invalid_ages_silently_computed_witness :
    (appRun badOrderPlan 0).isSome = true :=
  invalid_ages_silently_computed badOrderPlan 0 (Or.inl (by decide))
    (by decide) (by decide)

/-- C10: the age-60 analysis is well defined only when
`current_age ≤ 60 < lifespan`. When `lifespan = 60` the zero/negative-rate
branch divides `combined_at_60` by `months_post_60 = 0` and the post-60
trajectory is empty so reading its last element fails; when
`current_age > 60`, `months_to_60` is negative and the Python trajectory read
at index `months_to_60` silently returns an entry from near the end of the
list instead of failing. -/
theorem age60_analysis_precondition (p : Plan K) (c w : K) :
    (p.lifespan = 60 → p.current_age ≤ 60 →
      months_post_60 p = 0 ∧ ((months_post_60 p : ℤ) : K) = 0 ∧
      analysisAt60 p = none ∧
      fund_post_60_trajectory p.monthly_return w c (months_post_60 p).toNat = [] ∧
      pyGet (fund_post_60_trajectory p.monthly_return w c (months_post_60 p).toNat) (-1)
        = none) ∧
    (60 < p.current_age → 2 * p.current_age ≤ p.lifespan + 60 →
      months_to_60 p < 0 ∧
      pyGet (simulate p) (months_to_60 p)
        = (simulate p).get? (((simulate p).length : ℤ) + months_to_60 p).toNat ∧
      (pyGet (simulate p) (months_to_60 p)).isSome = true) := by
  constructor
  · intro hl hca
    have hmp0 : months_post_60 p = 0 := by unfold months_post_60; omega
    have htraj : fund_post_60_trajectory p.monthly_return w c (months_post_60 p).toNat
        = [] := by
      rw [hmp0]
      simp [fund_post_60_trajectory]
    refine ⟨hmp0, by rw [hmp0]; exact Int.cast_zero, ?_, htraj, ?_⟩
    · have h60 : (0 : ℤ) ≤ months_to_60 p := by unfold months_to_60; omega
      have hidx : (months_to_60 p).toNat < (simulate p).length := by
        rw [simulate_length]
        unfold months_to_60 months_total
        omega
      obtain ⟨s, hs⟩ := get?_isSome_of_lt _ _ hidx
      unfold analysisAt60
      rw [pyGet_of_nonneg _ _ h60, hs, Option.some_bind]
      by_cases hr : 0 < p.monthly_return
      · have hd : (1 + p.monthly_return) ^ (months_post_60 p) - 1 = 0 := by
          rw [hmp0, zpow_zero]
          ring
        rw [if_pos hr, if_pos hd]
      · have hd : ((months_post_60 p : ℤ) : K) = 0 := by
          rw [hmp0]; exact Int.cast_zero
        rw [if_neg hr, if_pos hd]
    · rw [htraj]
      norm_num [pyGet]
  · intro hca h2
    have hm60 : months_to_60 p < 0 := by unfold months_to_60; omega
    have hmt : (0 : ℤ) ≤ months_total p := by unfold months_total; omega
    have hinrange : (0 : ℤ) ≤ ((simulate p).length : ℤ) + months_to_60 p := by
      rw [simulate_length]
      unfold months_to_60 months_total
      push_cast
      omega
    have heq := pyGet_of_neg (simulate p) (months_to_60 p) hm60 hinrange
    refine ⟨hm60, heq, ?_⟩
    obtain ⟨v, hv⟩ := get?_isSome_of_lt (simulate p)
      (((simulate p).length : ℤ) + months_to_60 p).toNat (by omega)
    rw [heq, hv]
    rfl

/-- Witness for C10 at the two degenerate concrete plans. -/
theorem age60_analysis_precondition_witness :
    (months_post_60 lifespan60Plan = 0 ∧
      ((months_post_60 lifespan60Plan : ℤ) : ℚ) = 0 ∧
      analysisAt60 lifespan60Plan = none ∧
      fund_post_60_trajectory lifespan60Plan.monthly_return 0 0
        (months_post_60 lifespan60Plan).toNat = [] ∧
      pyGet (fund_post_60_trajectory lifespan60Plan.monthly_return 0 0
        (months_post_60 lifespan60Plan).toNat) (-1) = none) ∧
    (months_to_60 over60Plan < 0 ∧
      pyGet (simulate over60Plan) (months_to_60 over60Plan)
        = (simulate over60Plan).get?
            (((simulate over60Plan).length : ℤ) + months_to_60 over60Plan).toNat ∧
      (pyGet (simulate over60Plan) (months_to_60 over60Plan)).isSome = true) :=
  ⟨(age60_analysis_precondition lifespan60Plan 0 0).1 rfl (by decide),
   (age60_analysis_precondition over60Plan 0 0).2 (by decide) (by decide)⟩

/-- The claimed schedule default: in advanced mode an accumulation month whose
age-year key is absent from the schedule uses the flat amounts rather than
zero. -/
def scheduleDefaultsToFlat (p : Plan K) : Prop :=
  ∀ m : ℕ, 1 ≤ m → (m : ℤ) ≤ months_to_retirement p →
    (p.monthly_map (yearAt p m) = none → monthlyContribUsed p m = p.monthly_unlocked) ∧
    (p.lump_sum_map (yearAt p m) = none → m % 12 = 1 → lumpUsed p m = p.lump_sum)

/-- An advanced-mode plan whose schedule holds exactly the keys
`current_age..retirement_age-1` (here just age 30), with nonzero flat
fallbacks. -/
def advPlan : Plan ℚ where
  current_age := 30
  retirement_age := 31
  lifespan := 90
  monthly_return := 0
  initial_investment := 0
  locked_fraction := 0
  monthly_locked := 0
  target_withdrawal := 0
  use_advanced := true
  monthly_map := fun y => if y = 30 then some 3000 else none
  lump_sum_map := fun y => if y = 30 then some 40000 else none
  monthly_unlocked := 3000
  lump_sum := 40000

/-- Counterexample for C3: the final accumulation month of `advPlan` (month 12,
age-year 31) has no schedule key, and the contribution used is 0, not the flat
3000. -/
theorem schedule_missing_key_not_flat :
    (1 : ℤ) ≤ 12 ∧ (12 : ℤ) ≤ months_to_retirement advPlan ∧
    advPlan.monthly_map (yearAt advPlan 12) = none ∧
    monthlyContribUsed advPlan 12 = 0 ∧ advPlan.monthly_unlocked = 3000 ∧
    ¬ scheduleDefaultsToFlat advPlan := by
  have hmtr : months_to_retirement advPlan = 12 := by
    norm_num [months_to_retirement, advPlan]
  have hyear : yearAt advPlan 12 = 31 := by
    norm_num [yearAt, advPlan]
  have hnone : advPlan.monthly_map (yearAt advPlan 12) = none := by
    rw [hyear]
    norm_num [advPlan]
  have hzero : monthlyContribUsed advPlan 12 = 0 := by
    rw [monthlyContribUsed, if_pos (by norm_num [advPlan] : advPlan.use_advanced = true),
      hnone]
    rfl
  refine ⟨by norm_num, by rw [hmtr], hnone, hzero, by norm_num [advPlan], ?_⟩
  intro h
  have h12 := (h 12 (by norm_num) (by rw [hmtr]; norm_num)).1 hnone
  rw [hzero] at h12
  have : (0 : ℚ) = 3000 := by rw [h12]; norm_num [advPlan]
  norm_num at this

/-- C3 amended: in advanced mode, an accumulation month whose age-year key is
absent from the yearly contribution schedule uses 0 for the monthly unlocked
contribution and the annual lump sum, not the flat amount. -/
theorem schedule_missing_key_defaults_to_zero (p : Plan K) (m : ℕ)
    (hadv : p.use_advanced = true) :
    (p.monthly_map (yearAt p m) = none → monthlyContribUsed p m = 0) ∧
    (p.lump_sum_map (yearAt p m) = none → lumpUsed p m = 0) := by
  constructor
  · intro hnone
    simp [monthlyContribUsed, hadv, hnone]
  · intro hnone
    unfold lumpUsed
    split
    · simp [hadv, hnone]
    · rfl

/-- Witness for the amended C3 at month 12 of the concrete advanced plan. -/
theorem schedule_missing_key_defaults_to_zero_witness :
    monthlyContribUsed advPlan 12 = 0 ∧ lumpUsed advPlan 12 = 0 :=
  ⟨(schedule_missing_key_defaults_to_zero advPlan 12 rfl).1
      (by norm_num [yearAt, advPlan]),
   (schedule_missing_key_defaults_to_zero advPlan 12 rfl).2
      (by norm_num [yearAt, advPlan])⟩

/-- The claimed lump-sum timing: within the accumulation window a nonzero lump
sum is applied exactly at the month that marks the first month of its age-year,
`m = 12 * (yearAt m - current_age)`. -/
def lumpAtFirstMonthOfAgeYear (p : Plan K) : Prop :=
  ∀ m : ℕ, 1 ≤ m → (m : ℤ) ≤ months_to_retirement p →
    (lumpUsed p m ≠ 0 ↔ (m : ℤ) = 12 * (yearAt p m - p.current_age))

/-- An advanced-mode plan scheduling nonzero lump sums for age-years 30
and 31. -/
def advPlan2 : Plan ℚ :=
  { advPlan with
    retirement_age := 32
    lump_sum_map := fun y => if y = 30 ∨ y = 31 then some 40000 else none }

/-- Counterexample for C6: month 12 is the first month of age-year 31 of
`advPlan2` and lies in the accumulation window, yet no lump sum is applied
there (the code's condition `month % 12 == 1` fails). -/
theorem lump_not_at_first_month :
    (12 : ℤ) = 12 * (yearAt advPlan2 12 - advPlan2.current_age) ∧
    (12 : ℤ) ≤ months_to_retirement advPlan2 ∧
    lumpUsed advPlan2 12 = 0 ∧
    ¬ lumpAtFirstMonthOfAgeYear advPlan2 := by
  have hyear : yearAt advPlan2 12 = 31 := by
    norm_num [yearAt, advPlan2, advPlan]
  have hfirst : (12 : ℤ) = 12 * (yearAt advPlan2 12 - advPlan2.current_age) := by
    rw [hyear]
    norm_num [advPlan2, advPlan]
  have hmtr : months_to_retirement advPlan2 = 24 := by
    norm_num [months_to_retirement, advPlan2, advPlan]
  have hzero : lumpUsed advPlan2 12 = 0 := by
    rw [lumpUsed, if_neg (by norm_num : ¬ 12 % 12 = 1)]
  refine ⟨hfirst, by rw [hmtr]; norm_num, hzero, ?_⟩
  intro h
  have h12 := (h 12 (by norm_num) (by rw [hmtr]; norm_num)).mpr hfirst
  exact h12 hzero

/-- C6 amended: in advanced mode, for each scheduled age-year `Y`
(`current_age ≤ Y < retirement_age`) the lump-sum condition fires for year `Y`
at exactly one month, `12 * (Y - current_age) + 1` — the month after the first
month of that age-year when `Y > current_age`, and the first simulated month
when `Y = current_age` — so each scheduled year's lump sum is added exactly
once, with the amount looked up from the schedule. -/
theorem lump_applied_once (p : Plan K) (hadv : p.use_advanced = true)
    (Y : ℤ) (hY1 : p.current_age ≤ Y) (hY2 : Y < p.retirement_age) :
    (1 : ℤ) ≤ 12 * (Y - p.current_age) + 1 ∧
    12 * (Y - p.current_age) + 1 ≤ months_to_retirement p ∧
    ∀ m : ℕ, 1 ≤ m → (m : ℤ) ≤ months_to_retirement p →
      ((m % 12 = 1 ∧ yearAt p m = Y) ↔ (m : ℤ) = 12 * (Y - p.current_age) + 1) ∧
      (m % 12 = 1 → lumpUsed p m = (p.lump_sum_map (yearAt p m)).getD 0) ∧
      (m % 12 ≠ 1 → lumpUsed p m = 0) := by
  refine ⟨by omega, ?_, ?_⟩
  · unfold months_to_retirement
    omega
  · intro m hm1 hm2
    refine ⟨?_, ?_, ?_⟩
    · unfold yearAt
      omega
    · intro hmod
      simp [lumpUsed, hmod, hadv]
    · intro hmod
      simp [lumpUsed, hmod]

/-- Witness for the amended C6 at age-year 31 and month 13 of the concrete
advanced plan. -/
theorem lump_applied_once_witness :
    ((13 % 12 = 1 ∧ yearAt advPlan2 13 = 31) ↔
      ((13 : ℕ) : ℤ) = 12 * (31 - advPlan2.current_age) + 1) ∧
    lumpUsed advPlan2 13 = (advPlan2.lump_sum_map (yearAt advPlan2 13)).getD 0 :=
  have h := (lump_applied_once advPlan2 rfl 31 (by norm_num [advPlan2, advPlan])
    (by norm_num [advPlan2, advPlan])).2.2 13 (by norm_num)
    (by norm_num [months_to_retirement, advPlan2, advPlan])
  ⟨h.1, h.2.1 (by norm_num)⟩

/-- Modelled from the spec: ordinary-annuity present value
`amount * (1 - (1+rate)^(-n)) / rate` (spec 4.1); the one-shot sizing
calculator this serves is not present under `src/`. -/
def presentValue (amount rate : K) (n : ℕ) : K :=
  amount * (1 - (1 + rate) ^ (-(n : ℤ))) / rate

/-- Modelled from the spec: the annuity factor `((1+rate)^n - 1) / rate`, the
future value of one currency unit contributed per period for `n` periods. -/
def annuityFactor (rate : K) (n : ℕ) : K := ((1 + rate) ^ n - 1) / rate

/-- Modelled from the spec: the inputs of the one-shot sizing calculator
(spec 4.2), which is absent from `src/`. -/
structure SizingParams (K : Type*) where
  rate : K
  periodic_rate : K
  n_periods : ℕ
  withdrawal_pre : K
  withdrawal_post : K
  years_pre_lock : ℕ
  years_post_lock : ℕ
  years_to_retirement : ℕ
  initial_investment : K
  locked_fraction : K

/-- Modelled from the spec: the remaining funding gap at the early-retirement
age (spec 4.2 steps 1-4): needed amounts via `presentValue`, the initial lump
sum projected forward by bucket, every needed-minus-available subtraction
floored at zero, and the age-60 shortfall discounted back to the retirement
age. -/
def fundingGap (s : SizingParams K) : K :=
  let needed_at_ret := presentValue s.withdrawal_pre s.rate s.years_pre_lock
  let needed_at_60 := presentValue s.withdrawal_post s.rate s.years_post_lock
  let unlocked_fv := s.initial_investment * (1 - s.locked_fraction) *
      (1 + s.rate) ^ s.years_to_retirement
  let locked_fv := s.initial_investment * s.locked_fraction *
      (1 + s.rate) ^ (s.years_to_retirement + s.years_pre_lock)
  let shortfall_at_60 := max (needed_at_60 - locked_fv) 0
  let discounted := shortfall_at_60 * (1 + s.rate) ^ (-(s.years_pre_lock : ℤ))
  max (needed_at_ret - unlocked_fv) 0 + discounted

/-- Modelled from the spec: the required level periodic contribution
`gap / annuityFactor` (spec 4.2 step 5). -/
def requiredContribution (s : SizingParams K) : K :=
  fundingGap s / annuityFactor s.periodic_rate s.n_periods

/-- C9: the one-shot sizing calculator returns the remaining funding gap
divided by the annuity factor `((1+rate)^n - 1)/rate`; since every
needed-minus-available subtraction is floored at zero the required
contribution is never negative, and a large enough `initial_investment`
drives it to exactly 0. -/
theorem required_contribution_props (s : SizingParams K)
    (hr : 0 < s.rate) (hq : 0 < s.periodic_rate)
    (hlf0 : 0 < s.locked_fraction) (hlf1 : s.locked_fraction < 1) :
    requiredContribution s = fundingGap s / annuityFactor s.periodic_rate s.n_periods ∧
    0 ≤ requiredContribution s ∧
    ∃ I0 : K, ∀ init : K, I0 ≤ init →
      requiredContribution { s with initial_investment := init } = 0 := by
  refine ⟨rfl, ?_, ?_⟩
  · apply div_nonneg
    · apply add_nonneg (le_max_right _ _)
      apply mul_nonneg (le_max_right _ _)
      exact zpow_nonneg (by linarith) _
    · apply div_nonneg _ (le_of_lt hq)
      have h1 : (1 : K) ≤ (1 + s.periodic_rate) ^ s.n_periods :=
        one_le_pow₀ (by linarith)
      linarith
  · refine ⟨max (presentValue s.withdrawal_pre s.rate s.years_pre_lock /
        ((1 - s.locked_fraction) * (1 + s.rate) ^ s.years_to_retirement))
        (presentValue s.withdrawal_post s.rate s.years_post_lock /
        (s.locked_fraction * (1 + s.rate) ^ (s.years_to_retirement + s.years_pre_lock))),
        ?_⟩
    intro init hinit
    have hg1 : (0 : K) < (1 - s.locked_fraction) * (1 + s.rate) ^ s.years_to_retirement :=
      mul_pos (by linarith) (pow_pos (by linarith) _)
    have hg2 : (0 : K) <
        s.locked_fraction * (1 + s.rate) ^ (s.years_to_retirement + s.years_pre_lock) :=
      mul_pos hlf0 (pow_pos (by linarith) _)
    have h1 : presentValue s.withdrawal_pre s.rate s.years_pre_lock ≤
        init * ((1 - s.locked_fraction) * (1 + s.rate) ^ s.years_to_retirement) :=
      (div_le_iff hg1).mp (le_trans (le_max_left _ _) hinit)
    have h2 : presentValue s.withdrawal_post s.rate s.years_post_lock ≤
        init * (s.locked_fraction * (1 + s.rate) ^ (s.years_to_retirement + s.years_pre_lock)) :=
      (div_le_iff hg2).mp (le_trans (le_max_right _ _) hinit)
    show (max (presentValue s.withdrawal_pre s.rate s.years_pre_lock -
        init * (1 - s.locked_fraction) * (1 + s.rate) ^ s.years_to_retirement) 0 +
        max (presentValue s.withdrawal_post s.rate s.years_post_lock -
        init * s.locked_fraction * (1 + s.rate) ^ (s.years_to_retirement + s.years_pre_lock)) 0 *
        (1 + s.rate) ^ (-(s.years_pre_lock : ℤ))) /
        annuityFactor s.periodic_rate s.n_periods = 0
    rw [max_eq_right (by rw [mul_assoc]; linarith),
      max_eq_right (by rw [mul_assoc]; linarith), zero_mul, add_zero, zero_div]

/-- A concrete sizing-parameter set. -/
def sizingDemo : SizingParams ℚ where
  rate := 1 / 10
  periodic_rate := 1 / 100
  n_periods := 120
  withdrawal_pre := 120000
  withdrawal_post := 120000
  years_pre_lock := 24
  years_post_lock := 30
  years_to_retirement := 6
  initial_investment := 0
  locked_fraction := 1 / 2

/-- Witness for C9 at the concrete sizing parameters. -/
theorem required_contribution_props_witness :
    requiredContribution sizingDemo
        = fundingGap sizingDemo / annuityFactor sizingDemo.periodic_rate sizingDemo.n_periods ∧
    0 ≤ requiredContribution sizingDemo :=
  have h := required_contribution_props sizingDemo (by norm_num [sizingDemo])
    (by norm_num [sizingDemo]) (by norm_num [sizingDemo]) (by norm_num [sizingDemo])
  ⟨h.1, h.2.1⟩

end RetirementPlanner
